import Mathlib

/-!
Shallow embedding of the parent-company lookup service (`src/app.py`).

The upstream chat-completion service is modelled by an `ApiOutcome` value per
call: either the raw reply content (`reply`) or a raised exception rendered as
a message (`failure`).  Python `str.strip` is modelled by `pyStrip` and
`str.lower` by `pyLower` below.  Spreadsheet cells read by `pandas.read_excel`
are modelled as `Option String`: `none` is a missing value (NaN), `some s` a
cell whose string rendering is `s`.
-/

/-- Python `str.lower`, modelled characterwise (`Char.toLower`) so that it
evaluates by kernel reduction. -/
def pyLower (s : String) : String :=
  String.mk (s.toList.map Char.toLower)

/-- Python `str.strip`: drop leading and trailing whitespace. -/
def pyStrip (s : String) : String :=
  String.mk (((s.toList.dropWhile Char.isWhitespace).reverse.dropWhile
    Char.isWhitespace).reverse)

/-- Outcome of one `client.chat.completions.create` call: the message content
of the first choice, or the exception message if the call raised. -/
inductive ApiOutcome where
  | reply (content : String)
  | failure (msg : String)
deriving DecidableEq, Repr

/-- The dictionary returned by `get_parent_company_info` (app.py, lines 45-85).
A key that is absent or bound to Python `None` is modelled as `none`. -/
structure LookupResult where
  parent_company : Option String
  description : Option String
  error : Option String
deriving DecidableEq, Repr

/-- Embedding of `get_parent_company_info` (app.py, lines 45-85).
`clientOk` is whether the module-level Groq client was initialized;
`call1` is the outcome of the parent-company completion call and `call2`
the outcome of the description completion call (the prompt strings, being
opaque data sent to the external model, are not reproduced).  An exception
in either call lands in the `except` branch (lines 80-85). -/
def get_parent_company_info (clientOk : Bool) (company_name : String)
    (call1 call2 : ApiOutcome) : LookupResult :=
  if !clientOk then
    { parent_company := none, description := none,
      error := some "API client not initialized. Check your GROQ_API_KEY." }
  else
    match call1 with
    | .failure e =>
        { parent_company := some ("Error for " ++ company_name),
          description := some ("Error for " ++ company_name),
          error := some ("An API error occurred: " ++ e) }
    | .reply r =>
        let parent0 := pyStrip r
        let parent_company :=
          if (pyLower parent0) = (pyLower company_name) then "No parent company" else parent0
        match call2 with
        | .failure e =>
            { parent_company := some ("Error for " ++ company_name),
              description := some ("Error for " ++ company_name),
              error := some ("An API error occurred: " ++ e) }
        | .reply d =>
            { parent_company := some parent_company,
              description := some (pyStrip d),
              error := none }

/-- Embedding of `get_parent_company_only` (app.py, lines 87-109): one
completion call, self-match normalization, `"API Error"` on exception. -/
def get_parent_company_only (clientOk : Bool) (company_name : String)
    (call1 : ApiOutcome) : String :=
  if !clientOk then "Error: API client not initialized"
  else
    match call1 with
    | .failure _ => "API Error"
    | .reply r =>
        let parent_company := pyStrip r
        if (pyLower parent_company) = (pyLower company_name) then "No parent company"
        else parent_company

/-- `pandas` `astype(str)` rendering of one cell: a missing value (NaN)
renders as the string `"nan"`. -/
def cellStr : Option String → String
  | none => "nan"
  | some s => s

/-- One iteration of the batch loop in `process_file` (app.py, lines 176-182):
`company` is the `astype(str)` rendering of the first-column cell, `resolve`
gives the upstream outcome for the name actually passed to
`get_parent_company_only` (the stripped cell). -/
def processCell (resolve : String → ApiOutcome) (clientOk : Bool)
    (company : String) : String :=
  if (pyStrip company) ≠ "" ∧ (pyLower company) ≠ "nan" then
    get_parent_company_only clientOk (pyStrip company) (resolve (pyStrip company))
  else ""

/-- The company names the batch loop passes to `get_parent_company_only`
for one cell: the stripped cell when the guard on line 177 holds, else none. -/
def cellCalls (company : String) : List String :=
  if (pyStrip company) ≠ "" ∧ (pyLower company) ≠ "nan" then [(pyStrip company)] else []

/-- The `parent_companies` list built by the loop in `process_file`
(app.py, lines 175-182), from the first-column cells. -/
def parent_companies (resolve : String → ApiOutcome) (clientOk : Bool)
    (cells : List (Option String)) : List String :=
  (cells.map cellStr).map (processCell resolve clientOk)

/-- All company names passed to `get_parent_company_only` over a whole run
of the batch loop. -/
def batchCalls (cells : List (Option String)) : List String :=
  ((cells.map cellStr).map cellCalls).flatten

/-- A `pandas` DataFrame, as a list of named columns in order; a cell is
`none` when missing (NaN).  `read_excel` mangles duplicate headers, so column
names are taken to be unique. -/
structure DataFrame where
  cols : List (String × List (Option String))
deriving DecidableEq, Repr

/-- `df.columns`: the column names in order. -/
def DataFrame.columns (df : DataFrame) : List String :=
  df.cols.map Prod.fst

/-- The values of `df[df.columns[0]]`: the leftmost column. -/
def DataFrame.firstColumn (df : DataFrame) : List (Option String) :=
  ((df.cols.head?).map Prod.snd).getD []

/-- `len(df)`: number of data rows (length of the leftmost column). -/
def DataFrame.rowCount (df : DataFrame) : Nat :=
  df.firstColumn.length

/-- `df.empty`: true when the frame has no columns or no rows. -/
def DataFrame.isEmpty (df : DataFrame) : Bool :=
  df.cols.isEmpty || df.rowCount == 0

/-- `df[name]`: the values of the (first) column called `name`, `[]` if absent. -/
def DataFrame.colVals (df : DataFrame) (name : String) : List (Option String) :=
  ((df.cols.find? (fun c => c.fst == name)).map Prod.snd).getD []

/-- `df[name] = vals` in `pandas`: replaces the column called `name` in place
when it exists, otherwise appends a new column at the end. -/
def setColumn (df : DataFrame) (name : String) (vals : List (Option String)) :
    DataFrame :=
  if df.cols.any (fun c => c.fst == name) then
    ⟨df.cols.map (fun c => if c.fst == name then (c.fst, vals) else c)⟩
  else ⟨df.cols ++ [(name, vals)]⟩

/-- Response of the `/process` route (app.py, lines 160-196).  `success`
carries the output filename and the DataFrame written to the output file. -/
inductive ProcessResponse where
  | missingFilename
  | notFound
  | success (output_filename : String) (output : DataFrame)
  | procError (msg : String)
deriving DecidableEq, Repr

/-- Embedding of `process_file` (app.py, lines 160-196).  `uploadFs` is the set
of filenames present in the upload folder, `readExcel` the result of
`pd.read_excel` on a filename there, `resolve` the upstream outcome for each
company name sent to `get_parent_company_only`.  A `filename` of `none` or
`""` is falsy (`if not filename`); `df.columns[0]` on a column-less frame
raises, landing in the `except` branch. -/
def process_file (uploadFs : List String) (readExcel : String → Option DataFrame)
    (resolve : String → ApiOutcome) (clientOk : Bool)
    (filename : Option String) : ProcessResponse :=
  match filename with
  | none => .missingFilename
  | some f =>
    if f = "" then .missingFilename
    else if f ∈ uploadFs then
      match readExcel f with
      | none => .procError "An error occurred during processing"
      | some df =>
        if df.cols.isEmpty then .procError "An error occurred during processing"
        else
          let parents := parent_companies resolve clientOk df.firstColumn
          .success ("processed_" ++ f) (setColumn df "Parent Company" (parents.map some))
    else .notFound

/-- The allowed upload extensions (app.py, line 17). -/
def ALLOWED_EXTENSIONS : List String := ["xlsx", "xls"]

/-- `filename.rsplit('.', 1)[1]`: the text after the last dot. -/
def afterLastDot (cs : List Char) : List Char :=
  (cs.reverse.takeWhile (fun c => c != '.')).reverse

/-- Embedding of `allowed_file` (app.py, lines 42-43): the filename contains a
dot and the lowercased text after the last dot is an allowed extension. -/
def allowed_file (filename : String) : Bool :=
  decide ('.' ∈ filename.toList) &&
    decide (String.mk ((afterLastDot filename.toList).map Char.toLower)
      ∈ ALLOWED_EXTENSIONS)

/-- Response of the `/upload` route (app.py, lines 126-158). -/
inductive UploadResponse where
  | noFilePart
  | noFileSelected
  | invalidType
  | emptyFile
  | noCompanyNames (firstColumnName : String)
  | uploadError (msg : String)
  | ok (filename : String) (totalCompanies : Nat) (preview : List String)
deriving DecidableEq, Repr

/-- Embedding of `upload_file` (app.py, lines 126-158).  Returns the response
together with the resulting contents of the upload folder (`file.save` is the
only filesystem write; it is modelled as consing the secured filename).
`secure` models `werkzeug.utils.secure_filename`; `readExcel` the result of
`pd.read_excel` on the saved file.  The first column is read with `dropna()`
before `astype(str)`, so only present cells become company names. -/
def upload_file (uploadFs : List String) (secure : String → String)
    (readExcel : String → Option DataFrame) (hasFilePart : Bool)
    (origName : String) : UploadResponse × List String :=
  if !hasFilePart then (.noFilePart, uploadFs)
  else if origName = "" then (.noFileSelected, uploadFs)
  else if !allowed_file origName then (.invalidType, uploadFs)
  else
    let filename := secure origName
    let fs := filename :: uploadFs
    match readExcel filename with
    | none => (.uploadError "Error reading or saving file", fs)
    | some df =>
      if df.isEmpty then (.emptyFile, fs)
      else
        match df.cols.head? with
        | none => (.emptyFile, fs)  -- unreachable: `isEmpty` covers `cols = []`
        | some (firstName, firstVals) =>
          let companies := firstVals.filterMap id
          if companies.isEmpty then (.noCompanyNames firstName, fs)
          else (.ok filename companies.length (companies.take 5), fs)

/-- The claim's notion of a spreadsheet filename: ends in `.xlsx` or `.xls`,
case-insensitively. -/
def endsInAllowedExt (f : String) : Prop :=
  (".xlsx".toList <:+ f.toList.map Char.toLower) ∨
  (".xls".toList <:+ f.toList.map Char.toLower)

/-- Split a path string on `/` (segment accumulator in reverse). -/
def splitSegsAux : List Char → List Char → List (List Char)
  | [], acc => [acc.reverse]
  | c :: cs, acc =>
    if c = '/' then acc.reverse :: splitSegsAux cs []
    else splitSegsAux cs (c :: acc)

/-- Split a path string into its `/`-separated segments. -/
def splitSegs (s : String) : List String :=
  (splitSegsAux s.toList []).map String.mk

/-- One step of relative-path canonicalization: drop empty and `.` segments,
resolve `..` against the accumulated path, `none` once the path has escaped
the working directory. -/
def normStep (acc : Option (List String)) (seg : String) : Option (List String) :=
  match acc with
  | none => none
  | some path =>
    if seg = "" ∨ seg = "." then some path
    else if seg = ".." then
      match path with
      | [] => none
      | _ => some path.dropLast
    else some (path ++ [seg])

/-- Canonicalize a relative path, `none` when it escapes the working
directory (absolute filenames are outside this relative-path model). -/
def normSegs (segs : List String) : Option (List String) :=
  segs.foldl normStep (some [])

/-- Response of the `/download/<filename>` route. -/
inductive DownloadResponse where
  | notFound
  | served (path : List String)
deriving DecidableEq, Repr

/-- Embedding of `download_file` (app.py, lines 198-206).  `outputFs` is the
set of canonical paths (relative to the working directory) that exist on
disk; `os.path.join('outputs', filename)` followed by the existence check and
`send_file` is modelled by canonicalizing `outputs/<filename>` and serving the
file at that canonical path when it exists. -/
def download_file (outputFs : List (List String)) (filename : String) :
    DownloadResponse :=
  match normSegs ("outputs" :: splitSegs filename) with
  | none => .notFound
  | some p => if p ∈ outputFs then .served p else .notFound

/-- Whether a canonical path denotes a file strictly inside the `outputs`
directory. -/
def insideOutputs (p : List String) : Bool :=
  match p with
  | "outputs" :: _ :: _ => true
  | _ => false

/-- The spec's `LookupResult` invariant: exactly one of
(`parent_company` and `description`) or `error` is populated. -/
def exclusiveInvariant (res : LookupResult) : Prop :=
  (res.parent_company ≠ none ∧ res.description ≠ none ∧ res.error = none) ∨
  (res.error ≠ none ∧ res.parent_company = none ∧ res.description = none)

example : parent_companies (fun _ => .reply "BigCorp") true
    [some "Acme", none, some "  "] = ["BigCorp", "", ""] := by decide

example : get_parent_company_only true "Acme" (.reply " acme ") = "No parent company" := by
  decide

example : allowed_file "report.XLSX" = true := by decide
example : allowed_file "report.txt" = false := by decide
example : allowed_file "xlsx" = false := by decide

example : download_file [["uploads", "a.xlsx"]] "../uploads/a.xlsx"
    = .served ["uploads", "a.xlsx"] := by decide

example : process_file ["f.xlsx"] (fun _ => some ⟨[("Company", [some "Acme", none])]⟩)
    (fun _ => .reply "BigCorp") true (some "f.xlsx")
    = .success "processed_f.xlsx" ⟨[("Company", [some "Acme", none]),
        ("Parent Company", [some "BigCorp", some ""])]⟩ := by decide

/-! ## Claim theorems -/

/-- C1 (counterexample): with company "Acme" the first call's trimmed reply
"acme" matches case-insensitively, yet when the description call raises, the
full resolver's parent is the placeholder "Error for Acme", not the sentinel. -/
theorem c1_counterexample_desc_failure :
    pyLower (pyStrip "acme") = pyLower "Acme" ∧
    (get_parent_company_info true "Acme" (.reply "acme")
      (.failure "boom")).parent_company ≠ some "No parent company" := by
  decide

/-- C1 (amended): if the trimmed reply to the parent prompt equals the company
name case-insensitively, the name-only resolver returns the sentinel, and the
full resolver's parent is the sentinel provided the description call also
succeeds. -/
theorem c1_self_match_sentinel (c r d : String)
    (h : pyLower (pyStrip r) = pyLower c) :
    get_parent_company_only true c (.reply r) = "No parent company" ∧
    (get_parent_company_info true c (.reply r) (.reply d)).parent_company
      = some "No parent company" := by
  constructor
  · simp [get_parent_company_only, h]
  · simp [get_parent_company_info, h]

/-- C1 (witness): instantiation at "Acme" with reply " acme ". -/
theorem c1_self_match_sentinel_witness :
    get_parent_company_only true "Acme" (.reply " acme ") = "No parent company" ∧
    (get_parent_company_info true "Acme" (.reply " acme ")
      (.reply "desc")).parent_company = some "No parent company" :=
  c1_self_match_sentinel "Acme" " acme " "desc" (by decide)

/-- C6 (counterexample): with company "YouTube" and reply "Google" (distinct
case-insensitively), a failing description call makes the full resolver's
parent the placeholder "Error for YouTube" instead of the reply. -/
theorem c6_counterexample_desc_failure :
    pyLower (pyStrip "Google") ≠ pyLower "YouTube" ∧
    (get_parent_company_info true "YouTube" (.reply "Google")
      (.failure "x")).parent_company ≠ some "Google" ∧
    (get_parent_company_info true "YouTube" (.reply "Google")
      (.failure "x")).parent_company = some "Error for YouTube" := by
  decide

/-- C6 (amended): if the trimmed reply differs case-insensitively from the
company name, the name-only resolver returns the trimmed reply verbatim, and
so does the full resolver's parent provided the description call succeeds. -/
theorem c6_reply_verbatim (c r d : String)
    (h : pyLower (pyStrip r) ≠ pyLower c) :
    get_parent_company_only true c (.reply r) = pyStrip r ∧
    (get_parent_company_info true c (.reply r) (.reply d)).parent_company
      = some (pyStrip r) := by
  constructor
  · simp [get_parent_company_only, h]
  · simp [get_parent_company_info, h]

/-- C6 (witness): instantiation at "YouTube" with reply " Google ". -/
theorem c6_reply_verbatim_witness :
    get_parent_company_only true "YouTube" (.reply " Google ") = pyStrip " Google " ∧
    (get_parent_company_info true "YouTube" (.reply " Google ")
      (.reply "desc")).parent_company = some (pyStrip " Google ") :=
  c6_reply_verbatim "YouTube" " Google " "desc" (by decide)

/-- C3 (counterexample): an exception in the first call yields a result with
`error` populated AND placeholder strings in `parent_company`/`description`,
violating the exactly-one invariant. -/
theorem c3_counterexample_error_placeholders :
    ¬ exclusiveInvariant
      (get_parent_company_info true "Acme" (.failure "boom") (.reply "ok")) := by
  unfold exclusiveInvariant
  decide

/-- C3 (amended): every result of the full resolver is in exactly one of three
shapes: success (parent and description populated, error absent), missing
client (only error populated), or exception (error populated and parent and
description both set to the placeholder "Error for \<company\>"). -/
theorem c3_result_shape (clientOk : Bool) (c : String) (call1 call2 : ApiOutcome) :
    (let res := get_parent_company_info clientOk c call1 call2
     (res.error = none ∧ res.parent_company ≠ none ∧ res.description ≠ none) ∨
     (res.error ≠ none ∧ res.parent_company = none ∧ res.description = none) ∨
     (res.error ≠ none ∧ res.parent_company = some ("Error for " ++ c) ∧
      res.description = some ("Error for " ++ c))) := by
  cases clientOk <;> cases call1 <;> cases call2 <;>
    simp [get_parent_company_info]

/-- C4: if the upstream call for a row raises, the name-only resolver returns
"API Error" (it never propagates the exception), and the batch loop records
"API Error" for that row while the rows before and after are processed
normally. -/
theorem c4_api_error_row (resolve : String → ApiOutcome)
    (pre post : List (Option String)) (cell : Option String) (e : String)
    (h1 : pyStrip (cellStr cell) ≠ "") (h2 : pyLower (cellStr cell) ≠ "nan")
    (h3 : resolve (pyStrip (cellStr cell)) = .failure e) :
    get_parent_company_only true (pyStrip (cellStr cell))
      (resolve (pyStrip (cellStr cell))) = "API Error" ∧
    parent_companies resolve true (pre ++ cell :: post)
      = parent_companies resolve true pre
        ++ "API Error" :: parent_companies resolve true post := by
  have hres : get_parent_company_only true (pyStrip (cellStr cell))
      (resolve (pyStrip (cellStr cell))) = "API Error" := by
    rw [h3]; simp [get_parent_company_only]
  refine ⟨hres, ?_⟩
  simp only [parent_companies, List.map_append, List.map_cons]
  simp [processCell, h1, h2, hres]

/-- C4 (witness): a three-row batch whose middle row's upstream call fails. -/
theorem c4_api_error_row_witness :
    get_parent_company_only true (pyStrip (cellStr (some "B")))
      ((fun _ => ApiOutcome.failure "down") (pyStrip (cellStr (some "B"))))
      = "API Error" ∧
    parent_companies (fun _ => ApiOutcome.failure "down") true
      ([some "A"] ++ (some "B") :: [some "C"])
      = parent_companies (fun _ => ApiOutcome.failure "down") true [some "A"]
        ++ "API Error"
          :: parent_companies (fun _ => ApiOutcome.failure "down") true [some "C"] :=
  c4_api_error_row (fun _ => ApiOutcome.failure "down") [some "A"] [some "C"]
    (some "B") "down" (by decide) (by decide) (by decide)

/-- C10: a first-column cell whose `astype(str)` rendering is exactly "nan"
case-insensitively (a missing value, or a genuine text cell such as "NaN") is
treated as missing: the loop emits the empty string for that row and passes no
name to `get_parent_company_only` for it. -/
theorem c10_nan_cell_skipped (resolve : String → ApiOutcome) (clientOk : Bool)
    (pre post : List (Option String)) (cell : Option String)
    (h : pyLower (cellStr cell) = "nan") :
    processCell resolve clientOk (cellStr cell) = "" ∧
    cellCalls (cellStr cell) = [] ∧
    parent_companies resolve clientOk (pre ++ cell :: post)
      = parent_companies resolve clientOk pre
        ++ "" :: parent_companies resolve clientOk post ∧
    batchCalls (pre ++ cell :: post) = batchCalls pre ++ batchCalls post := by
  have hcond : ¬ (pyStrip (cellStr cell) ≠ "" ∧ pyLower (cellStr cell) ≠ "nan") :=
    fun hand => hand.2 h
  refine ⟨by simp [processCell, hcond], by simp [cellCalls, hcond], ?_, ?_⟩
  · simp only [parent_companies, List.map_append, List.map_cons]
    simp [processCell, hcond]
  · simp only [batchCalls, List.map_append, List.map_cons, List.flatten_append,
      List.flatten_cons]
    simp [cellCalls, hcond]

/-- C10 (witness): a genuine text cell "NaN" between two real company rows. -/
theorem c10_nan_cell_skipped_witness :
    processCell (fun _ => ApiOutcome.reply "P") true (cellStr (some "NaN")) = "" ∧
    cellCalls (cellStr (some "NaN")) = [] ∧
    parent_companies (fun _ => ApiOutcome.reply "P") true
      ([some "A"] ++ (some "NaN") :: [some "C"])
      = parent_companies (fun _ => ApiOutcome.reply "P") true [some "A"]
        ++ "" :: parent_companies (fun _ => ApiOutcome.reply "P") true [some "C"] ∧
    batchCalls ([some "A"] ++ (some "NaN") :: [some "C"])
      = batchCalls [some "A"] ++ batchCalls [some "C"] :=
  c10_nan_cell_skipped (fun _ => ApiOutcome.reply "P") true [some "A"] [some "C"]
    (some "NaN") (by decide)

/-- After replacing the column called `n`, `find?` by that name yields the
replaced column. -/
theorem find?_map_replace (n : String) (vals : List (Option String)) :
    ∀ (l : List (String × List (Option String))),
      l.any (fun c => c.fst == n) = true →
      (l.map (fun c => if c.fst == n then (c.fst, vals) else c)).find?
        (fun c => c.fst == n) = some (n, vals) := by
  intro l
  induction l with
  | nil => intro h; simp at h
  | cons c l ih =>
    intro h
    rw [List.map_cons]
    by_cases hc : c.fst = n
    · rw [if_pos (by exact beq_iff_eq.mpr hc)]
      rw [List.find?_cons_of_pos _ (by exact beq_iff_eq.mpr hc), hc]
    · have hl : l.any (fun c => c.fst == n) = true := by
        simpa [List.any_cons, hc] using h
      rw [if_neg (by simp [hc])]
      rw [List.find?_cons_of_neg _ (by simp [hc]), ih hl]

/-- `find?` skips a prefix where the predicate never holds. -/
theorem find?_append_of_any_false {α} (p : α → Bool) (l₂ : List α) :
    ∀ (l : List α), l.any p = false → (l ++ l₂).find? p = l₂.find? p := by
  intro l
  induction l with
  | nil => intro _; simp
  | cons c l ih =>
    intro h
    have hc : p c = false := by
      cases hpc : p c
      · rfl
      · simp [List.any_cons, hpc] at h
    have hl : l.any p = false := by
      cases hpl : l.any p
      · rfl
      · simp [List.any_cons, hpl] at h
    simp [List.find?, hc, ih hl]

/-- Assigning column `n` makes `df[n]` the assigned values, whether the column
existed before or not. -/
theorem colVals_setColumn (df : DataFrame) (n : String)
    (vals : List (Option String)) :
    (setColumn df n vals).colVals n = vals := by
  unfold setColumn
  by_cases hA : df.cols.any (fun c => c.fst == n) = true
  · simp only [hA, if_true]
    unfold DataFrame.colVals
    rw [find?_map_replace n vals df.cols hA]
    rfl
  · have hA' : df.cols.any (fun c => c.fst == n) = false := by
      cases h : df.cols.any (fun c => c.fst == n)
      · rfl
      · exact absurd h hA
    simp only [hA', Bool.false_eq_true, if_false]
    unfold DataFrame.colVals
    rw [find?_append_of_any_false _ _ _ hA']
    rw [List.find?_cons_of_pos _ (by exact beq_self_eq_true n)]
    rfl

/-- Assigning a column of the right length preserves the row count. -/
theorem rowCount_setColumn (df : DataFrame) (n : String)
    (vals : List (Option String)) (h0 : df.cols ≠ [])
    (hlen : vals.length = df.rowCount) :
    (setColumn df n vals).rowCount = df.rowCount := by
  obtain ⟨c, l, hc⟩ := List.exists_cons_of_ne_nil h0
  have hfirst : df.firstColumn = c.snd := by
    unfold DataFrame.firstColumn; rw [hc]; rfl
  unfold setColumn
  by_cases hA : df.cols.any (fun c => c.fst == n) = true
  · simp only [hA, if_true]
    rw [hc, List.map_cons]
    by_cases hcn : c.fst = n
    · rw [if_pos (by exact beq_iff_eq.mpr hcn)]
      unfold DataFrame.rowCount
      rw [hfirst]
      show vals.length = c.snd.length
      rw [hlen]
      unfold DataFrame.rowCount
      rw [hfirst]
    · rw [if_neg (by simp [hcn])]
      unfold DataFrame.rowCount
      rw [hfirst]
      rfl
  · have hA' : df.cols.any (fun c => c.fst == n) = false := by
      cases h : df.cols.any (fun c => c.fst == n)
      · rfl
      · exact absurd h hA
    simp only [hA', Bool.false_eq_true, if_false]
    rw [hc, List.cons_append]
    unfold DataFrame.rowCount
    rw [hfirst]
    rfl

/-- When no column is called `n`, assignment appends a new column. -/
theorem setColumn_cols_of_not_mem (df : DataFrame) (n : String)
    (vals : List (Option String)) (h : n ∉ df.columns) :
    (setColumn df n vals).cols = df.cols ++ [(n, vals)] := by
  have hA : df.cols.any (fun c => c.fst == n) = false := by
    cases hB : df.cols.any (fun c => c.fst == n)
    · rfl
    · exfalso
      obtain ⟨c, hcmem, hcq⟩ := List.any_eq_true.mp hB
      exact h (eq_of_beq hcq ▸ List.mem_map_of_mem Prod.fst hcmem)
  unfold setColumn
  simp [hA]

/-- Inversion of a successful `/process` request: the processing must have got
past all the guards, and the output frame is the input frame with the
`parent_companies` column assigned. -/
theorem process_success_inv (uploadFs : List String)
    (readExcel : String → Option DataFrame) (resolve : String → ApiOutcome)
    (clientOk : Bool) (f : String) (df : DataFrame) (name : String)
    (out : DataFrame) (hre : readExcel f = some df)
    (hp : process_file uploadFs readExcel resolve clientOk (some f)
      = .success name out) :
    df.cols ≠ [] ∧ name = "processed_" ++ f ∧
    out = setColumn df "Parent Company"
      ((parent_companies resolve clientOk df.firstColumn).map some) := by
  unfold process_file at hp
  by_cases hf : f = ""
  · simp [hf] at hp
  · by_cases hmem : f ∈ uploadFs
    · simp only [hf, if_false, hmem, if_true, hre] at hp
      by_cases hcols : df.cols.isEmpty
      · simp [hcols] at hp
      · simp only [hcols, Bool.false_eq_true, if_false, ProcessResponse.success.injEq] at hp
        refine ⟨by simpa using hcols, hp.1.symm, hp.2.symm⟩
    · simp [hf, hmem] at hp

/-- C2: a successfully processed sheet yields one output row per input row, in
order: the appended column has exactly the input row count, the row count of
the output frame equals that of the input, and a row whose first-column cell
is missing or blank gets the empty string in the appended column. -/
theorem c2_rows_preserved (uploadFs : List String)
    (readExcel : String → Option DataFrame) (resolve : String → ApiOutcome)
    (clientOk : Bool) (f : String) (df : DataFrame) (name : String)
    (out : DataFrame) (i : Nat) (cell : Option String)
    (hre : readExcel f = some df)
    (hp : process_file uploadFs readExcel resolve clientOk (some f)
      = .success name out)
    (hcell : df.firstColumn[i]? = some cell)
    (hblank : cell = none ∨ pyStrip (cellStr cell) = "") :
    out.rowCount = df.rowCount ∧
    (out.colVals "Parent Company").length = df.rowCount ∧
    (out.colVals "Parent Company")[i]? = some (some "") := by
  obtain ⟨hcols, -, hout⟩ :=
    process_success_inv uploadFs readExcel resolve clientOk f df name out hre hp
  subst hout
  have hlen : ((parent_companies resolve clientOk df.firstColumn).map some).length
      = df.rowCount := by
    simp [parent_companies, DataFrame.rowCount]
  have hcv := colVals_setColumn df "Parent Company"
    ((parent_companies resolve clientOk df.firstColumn).map some)
  refine ⟨rowCount_setColumn _ _ _ hcols hlen, ?_, ?_⟩
  · rw [hcv, hlen]
  · rw [hcv]
    have hpc : processCell resolve clientOk (cellStr cell) = "" := by
      rcases hblank with hnone | hempty
      · subst hnone
        unfold processCell
        exact if_neg (fun hand => hand.2 (by decide))
      · unfold processCell
        exact if_neg (fun hand => hand.1 hempty)
    simp only [parent_companies]
    rw [List.getElem?_map, List.getElem?_map, List.getElem?_map, hcell]
    simp [hpc]

/-- C2 (witness): a three-row sheet with a blank cell, a missing cell and a
real company name. -/
theorem c2_rows_preserved_witness :
    (⟨[("Company", [some "  ", none, some "Acme"]),
       ("Parent Company", [some "", some "", some "P"])]⟩ : DataFrame).rowCount
      = (⟨[("Company", [some "  ", none, some "Acme"])]⟩ : DataFrame).rowCount ∧
    ((⟨[("Company", [some "  ", none, some "Acme"]),
        ("Parent Company", [some "", some "", some "P"])]⟩ : DataFrame).colVals
        "Parent Company").length
      = (⟨[("Company", [some "  ", none, some "Acme"])]⟩ : DataFrame).rowCount ∧
    ((⟨[("Company", [some "  ", none, some "Acme"]),
        ("Parent Company", [some "", some "", some "P"])]⟩ : DataFrame).colVals
        "Parent Company")[0]? = some (some "") :=
  c2_rows_preserved ["f.xlsx"]
    (fun _ => some ⟨[("Company", [some "  ", none, some "Acme"])]⟩)
    (fun _ => ApiOutcome.reply "P") true "f.xlsx"
    ⟨[("Company", [some "  ", none, some "Acme"])]⟩ "processed_f.xlsx"
    ⟨[("Company", [some "  ", none, some "Acme"]),
      ("Parent Company", [some "", some "", some "P"])]⟩ 0 (some "  ")
    rfl (by decide) (by decide) (Or.inr (by decide))

/-- C5 (counterexample): if the input sheet already has a column named
"Parent Company", processing overwrites that column in place: the output has
the same number of columns (not one more) and the original column's values are
gone. -/
theorem c5_counterexample_existing_column :
    process_file ["f.xlsx"]
      (fun _ => some ⟨[("Parent Company", [some "Acme"])]⟩)
      (fun _ => ApiOutcome.reply "BigCorp") true (some "f.xlsx")
      = .success "processed_f.xlsx" ⟨[("Parent Company", [some "BigCorp"])]⟩ ∧
    (⟨[("Parent Company", [some "BigCorp"])]⟩ : DataFrame).cols.length
      ≠ (⟨[("Parent Company", [some "Acme"])]⟩ : DataFrame).cols.length + 1 ∧
    ("Parent Company", [some "Acme"])
      ∉ (⟨[("Parent Company", [some "BigCorp"])]⟩ : DataFrame).cols := by
  decide

/-- C5 (amended): provided the input sheet has no column named
"Parent Company", a successfully processed sheet's output frame is the input
frame's columns, unmodified and in order, plus exactly one appended column
named "Parent Company". -/
theorem c5_columns_appended (uploadFs : List String)
    (readExcel : String → Option DataFrame) (resolve : String → ApiOutcome)
    (clientOk : Bool) (f : String) (df : DataFrame) (name : String)
    (out : DataFrame)
    (hre : readExcel f = some df)
    (hnc : "Parent Company" ∉ df.columns)
    (hp : process_file uploadFs readExcel resolve clientOk (some f)
      = .success name out) :
    out.cols = df.cols ++
      [("Parent Company",
        (parent_companies resolve clientOk df.firstColumn).map some)] ∧
    out.columns = df.columns ++ ["Parent Company"] := by
  obtain ⟨-, -, hout⟩ :=
    process_success_inv uploadFs readExcel resolve clientOk f df name out hre hp
  subst hout
  have h1 := setColumn_cols_of_not_mem df "Parent Company"
    ((parent_companies resolve clientOk df.firstColumn).map some) hnc
  refine ⟨h1, ?_⟩
  unfold DataFrame.columns
  rw [h1, List.map_append]
  rfl

/-- C5 (witness): a one-column sheet gains exactly the appended column. -/
theorem c5_columns_appended_witness :
    (⟨[("Company", [some "YouTube"]), ("Parent Company", [some "Google"])]⟩
      : DataFrame).cols
      = (⟨[("Company", [some "YouTube"])]⟩ : DataFrame).cols ++
        [("Parent Company",
          (parent_companies (fun _ => ApiOutcome.reply "Google") true
            (⟨[("Company", [some "YouTube"])]⟩ : DataFrame).firstColumn).map some)] ∧
    (⟨[("Company", [some "YouTube"]), ("Parent Company", [some "Google"])]⟩
      : DataFrame).columns
      = (⟨[("Company", [some "YouTube"])]⟩ : DataFrame).columns ++ ["Parent Company"] :=
  c5_columns_appended ["f.xlsx"]
    (fun _ => some ⟨[("Company", [some "YouTube"])]⟩)
    (fun _ => ApiOutcome.reply "Google") true "f.xlsx"
    ⟨[("Company", [some "YouTube"])]⟩ "processed_f.xlsx"
    ⟨[("Company", [some "YouTube"]), ("Parent Company", [some "Google"])]⟩
    rfl (by decide) (by decide)

/-- The head of a non-empty `dropWhile` result falsifies the predicate. -/
theorem dropWhile_head_false {α : Type} (p : α → Bool) :
    ∀ (l : List α) (c : α) (cs : List α), l.dropWhile p = c :: cs → p c = false := by
  intro l
  induction l with
  | nil => intro c cs h; simp [List.dropWhile] at h
  | cons a l ih =>
    intro c cs h
    rw [List.dropWhile_cons] at h
    by_cases hpa : p a
    · rw [if_pos hpa] at h
      exact ih c cs h
    · rw [if_neg hpa] at h
      injection h with h1 _
      subst h1
      exact Bool.eq_false_iff.mpr hpa

/-- Any filename accepted by `allowed_file` ends in `.xlsx` or `.xls`
case-insensitively. -/
theorem allowed_file_ends (f : String) (h : allowed_file f = true) :
    endsInAllowedExt f := by
  unfold allowed_file at h
  rw [Bool.and_eq_true, decide_eq_true_eq, decide_eq_true_eq] at h
  obtain ⟨h1, h2⟩ := h
  have hmemrev : '.' ∈ f.toList.reverse := List.mem_reverse.mpr h1
  have hsplit :
      f.toList.reverse.takeWhile (fun c => c != '.')
        ++ f.toList.reverse.dropWhile (fun c => c != '.') = f.toList.reverse :=
    List.takeWhile_append_dropWhile _ _
  have hdw : f.toList.reverse.dropWhile (fun c => c != '.') ≠ [] := by
    intro hnil
    rw [hnil, List.append_nil] at hsplit
    have hmem : '.' ∈ f.toList.reverse.takeWhile (fun c => c != '.') := by
      rw [hsplit]; exact hmemrev
    have hp' := List.mem_takeWhile_imp hmem
    simp at hp'
  obtain ⟨c, dw', hcons⟩ := List.exists_cons_of_ne_nil hdw
  have hcfalse := dropWhile_head_false _ _ _ _ hcons
  have hcdot : c = '.' := by
    by_contra hne
    simp [hne] at hcfalse
  subst hcdot
  have hrs2 : f.toList.reverse
      = f.toList.reverse.takeWhile (fun c => c != '.') ++ '.' :: dw' := by
    conv_lhs => rw [← hsplit]
    rw [hcons]
  have hcs2 : f.toList
      = dw'.reverse
        ++ '.' :: (f.toList.reverse.takeWhile (fun c => c != '.')).reverse := by
    have hrev := congrArg List.reverse hrs2
    rw [List.reverse_reverse] at hrev
    refine hrev.trans ?_
    rw [List.reverse_append, List.reverse_cons]
    simp [List.append_assoc]
  unfold afterLastDot at h2
  have hdata :
      (f.toList.reverse.takeWhile (fun c => c != '.')).reverse.map Char.toLower
        = "xlsx".data ∨
      (f.toList.reverse.takeWhile (fun c => c != '.')).reverse.map Char.toLower
        = "xls".data := by
    simp only [ALLOWED_EXTENSIONS, List.mem_cons, List.mem_singleton] at h2
    rcases h2 with h2 | h2 | h2
    · exact Or.inl (congrArg String.data h2)
    · exact Or.inr (congrArg String.data h2)
    · simp at h2
  rcases hdata with hd | hd
  · refine Or.inl ⟨dw'.reverse.map Char.toLower, ?_⟩
    have hxe : (".xlsx".toList : List Char) = Char.toLower '.' :: "xlsx".data := by
      decide
    rw [hcs2, List.map_append, List.map_cons, hd, hxe]
  · refine Or.inr ⟨dw'.reverse.map Char.toLower, ?_⟩
    have hxe : (".xls".toList : List Char) = Char.toLower '.' :: "xls".data := by
      decide
    rw [hcs2, List.map_append, List.map_cons, hd, hxe]

/-- C7: an upload whose filename does not end in `.xlsx` or `.xls`
(case-insensitively) is rejected with a validation error — "no file
selected" for the empty filename, "invalid file type" otherwise — and the
upload folder is untouched: `file.save` runs only after `allowed_file`
passes. -/
theorem c7_bad_extension_rejected (uploadFs : List String)
    (secure : String → String) (readExcel : String → Option DataFrame)
    (f : String) (h : ¬ endsInAllowedExt f) :
    (upload_file uploadFs secure readExcel true f).2 = uploadFs ∧
    ((upload_file uploadFs secure readExcel true f).1 = .noFileSelected ∨
     (upload_file uploadFs secure readExcel true f).1 = .invalidType) := by
  have hal : allowed_file f = false := by
    cases hA : allowed_file f
    · rfl
    · exact absurd (allowed_file_ends f hA) h
  by_cases hf : f = ""
  · unfold upload_file
    rw [if_neg (by decide), if_pos hf]
    exact ⟨rfl, Or.inl rfl⟩
  · unfold upload_file
    rw [if_neg (by decide), if_neg hf, if_pos (by simp [hal])]
    exact ⟨rfl, Or.inr rfl⟩

/-- C7 (witness): a `.txt` upload is rejected without touching the folder. -/
theorem c7_bad_extension_rejected_witness :
    (upload_file ["old.xlsx"] (fun s => s) (fun _ => none) true "evil.txt").2
      = ["old.xlsx"] ∧
    ((upload_file ["old.xlsx"] (fun s => s) (fun _ => none) true "evil.txt").1
        = .noFileSelected ∨
     (upload_file ["old.xlsx"] (fun s => s) (fun _ => none) true "evil.txt").1
        = .invalidType) :=
  c7_bad_extension_rejected ["old.xlsx"] (fun s => s) (fun _ => none) "evil.txt"
    (by unfold endsInAllowedExt; decide)

/-- `splitSegsAux` on a slash-free remainder yields a single segment. -/
theorem splitSegsAux_no_slash :
    ∀ (cs acc : List Char), (∀ c ∈ cs, c ≠ '/') →
      splitSegsAux cs acc = [acc.reverse ++ cs] := by
  intro cs
  induction cs with
  | nil => intro acc _; simp [splitSegsAux]
  | cons c cs ih =>
    intro acc h
    have hc : c ≠ '/' := h c (List.mem_cons_self c cs)
    simp only [splitSegsAux]
    rw [if_neg hc, ih (c :: acc) (fun x hx => h x (List.mem_cons_of_mem _ hx))]
    simp

/-- A filename containing no slash is a single path segment. -/
theorem splitSegs_no_slash (f : String) (h : ∀ c ∈ f.toList, c ≠ '/') :
    splitSegs f = [f] := by
  unfold splitSegs
  rw [splitSegsAux_no_slash f.toList [] h]
  simp only [List.reverse_nil, List.nil_append, List.map_cons, List.map_nil]
  rfl

/-- A plain segment (non-empty, not `.` or `..`) just extends the path. -/
theorem normStep_some (path : List String) (seg : String) (h1 : seg ≠ "")
    (h2 : seg ≠ ".") (h3 : seg ≠ "..") :
    normStep (some path) seg = some (path ++ [seg]) := by
  simp only [normStep]
  rw [if_neg (by rintro (h | h); exacts [h1 h, h2 h]), if_neg h3]

/-- C8 (counterexample): with a filename containing `..` path segments, the
download route serves a file outside the output directory — here
`uploads/a.xlsx` via the request filename `../uploads/a.xlsx` — because the
raw filename is joined to the output folder with no traversal check. -/
theorem c8_counterexample_traversal :
    download_file [["uploads", "a.xlsx"]] "../uploads/a.xlsx"
      = .served ["uploads", "a.xlsx"] ∧
    insideOutputs ["uploads", "a.xlsx"] = false := by
  decide

/-- C8 (amended): for filenames without path separators and other than `.`
and `..` (what an HTTP path segment normally is), the download route serves
exactly the file with that name inside the output directory when it exists,
and answers not-found when it does not; the served path lies inside the
output directory. -/
theorem c8_plain_name_download (outputFs : List (List String)) (filename : String)
    (h1 : ∀ c ∈ filename.toList, c ≠ '/') (h2 : filename ≠ "")
    (h3 : filename ≠ ".") (h4 : filename ≠ "..") :
    (["outputs", filename] ∈ outputFs →
      download_file outputFs filename = .served ["outputs", filename] ∧
      insideOutputs ["outputs", filename] = true) ∧
    (["outputs", filename] ∉ outputFs →
      download_file outputFs filename = .notFound) := by
  have hs : splitSegs filename = [filename] := splitSegs_no_slash filename h1
  have hn : normSegs ("outputs" :: splitSegs filename)
      = some ["outputs", filename] := by
    rw [hs]
    unfold normSegs
    rw [List.foldl_cons, List.foldl_cons, List.foldl_nil,
      normStep_some [] "outputs" (by decide) (by decide) (by decide),
      List.nil_append, normStep_some ["outputs"] filename h2 h3 h4]
    rfl
  constructor
  · intro hmem
    refine ⟨?_, rfl⟩
    unfold download_file
    rw [hn]
    simp [hmem]
  · intro hmem
    unfold download_file
    rw [hn]
    simp [hmem]

/-- C8 (witness): a processed file present in the output folder is served. -/
theorem c8_plain_name_download_witness :
    download_file [["outputs", "r.xlsx"]] "r.xlsx"
      = .served ["outputs", "r.xlsx"] ∧
    insideOutputs ["outputs", "r.xlsx"] = true :=
  (c8_plain_name_download [["outputs", "r.xlsx"]] "r.xlsx" (by decide)
    (by decide) (by decide) (by decide)).1 (by decide)

/-- Once an upload passes the filename and extension checks, every outcome —
read failure, empty sheet, no company names, or success — leaves the saved
file in the upload folder. -/
theorem upload_snd_after_save (uploadFs : List String) (secure : String → String)
    (readExcel : String → Option DataFrame) (f : String)
    (hal : allowed_file f = true) (hf : f ≠ "") :
    (upload_file uploadFs secure readExcel true f).2 = secure f :: uploadFs := by
  unfold upload_file
  rw [if_neg (by decide), if_neg hf, if_neg (by simp [hal])]
  cases hread : readExcel (secure f) with
  | none => simp [hread]
  | some df =>
    by_cases hemp : df.isEmpty
    · simp [hread, hemp]
    · cases hh : df.cols.head? with
      | none => simp [hread, hemp, hh]
      | some c =>
        obtain ⟨fn, fv⟩ := c
        by_cases hco : (fv.filterMap id).isEmpty <;>
          simp [hread, hemp, hh, hco]

/-- C9: when an upload is rejected with the "empty file" or "no company
names" 400 error, the file has already been saved and stays in the upload
folder, so a subsequent `/process` request for the stored filename passes the
existence check: it never answers not-found. -/
theorem c9_file_persists_after_reject (uploadFs : List String)
    (secure : String → String) (readExcel : String → Option DataFrame)
    (f : String) (resp : UploadResponse) (fs2 : List String)
    (resolve : String → ApiOutcome) (clientOk : Bool)
    (hu : upload_file uploadFs secure readExcel true f = (resp, fs2))
    (hr : resp = .emptyFile ∨ ∃ n, resp = .noCompanyNames n)
    (hsf : secure f ≠ "") :
    secure f ∈ fs2 ∧
    process_file fs2 readExcel resolve clientOk (some (secure f))
      ≠ .notFound := by
  by_cases hf : f = ""
  · exfalso
    unfold upload_file at hu
    rw [if_neg (by decide), if_pos hf] at hu
    injection hu with h1 _
    rcases hr with h | ⟨n, h⟩ <;> rw [h] at h1 <;> exact UploadResponse.noConfusion h1
  by_cases hal : allowed_file f = true
  · have hfs2 : fs2 = secure f :: uploadFs := by
      have := congrArg Prod.snd hu
      rw [upload_snd_after_save uploadFs secure readExcel f hal hf] at this
      exact this.symm
    have hmem : secure f ∈ fs2 := by
      rw [hfs2]; exact List.mem_cons_self _ _
    refine ⟨hmem, ?_⟩
    intro hcontra
    cases hread : readExcel (secure f) with
    | none => simp [process_file, hsf, hmem, hread] at hcontra
    | some df =>
      by_cases hcols : df.cols.isEmpty <;>
        simp [process_file, hsf, hmem, hread, hcols] at hcontra
  · exfalso
    have hal' : allowed_file f = false := by
      cases h : allowed_file f
      · rfl
      · exact absurd h hal
    unfold upload_file at hu
    rw [if_neg (by decide), if_neg hf, if_pos (by simp [hal'])] at hu
    injection hu with h1 _
    rcases hr with h | ⟨n, h⟩ <;> rw [h] at h1 <;> exact UploadResponse.noConfusion h1

/-- C9 (witness): an upload of a sheet with a header but zero data rows is
rejected as empty, yet processing the stored filename proceeds. -/
theorem c9_file_persists_after_reject_witness :
    "c.xlsx" ∈ ["c.xlsx"] ∧
    process_file ["c.xlsx"] (fun _ => some ⟨[("Company", [])]⟩)
      (fun _ => ApiOutcome.reply "P") true (some "c.xlsx") ≠ .notFound :=
  c9_file_persists_after_reject [] (fun s => s)
    (fun _ => some ⟨[("Company", [])]⟩) "c.xlsx" .emptyFile ["c.xlsx"]
    (fun _ => ApiOutcome.reply "P") true (by decide) (Or.inl rfl) (by decide)
